import Mathlib

/-!
Voice sentiment dashboard, `static/js/script.js`.

A shallow embedding of the browser script and the properties proved about it.

Conventions of the embedding.
* A JavaScript number is an exact rational (`ℚ`); a count is an integer.
* A plain JavaScript object is the list of its own properties in creation
  order (`JSObject`); `Object.entries` and property reads are functions on it.
* The page is a record (`Page`) of the DOM state the script writes and of the
  script's three global variables; a function of the script is a function on
  that record, and one that can throw also returns whether it completed.
-/

namespace VoiceSentiment

/-! ## JavaScript objects -/

/-- Own enumerable string-keyed properties of a plain object, in creation order. -/
abbrev JSObject (α : Type) := List (String × α)

/-- A property key is an array index when it is the canonical decimal form (no
sign, no leading zero) of an integer below `2^32 - 1`. -/
def asArrayIndex (key : String) : Option Nat :=
  let cs := key.toList
  if cs.all Char.isDigit ∧ cs ≠ [] ∧ (cs.length = 1 ∨ cs.head? ≠ some '0') then
    let n := cs.foldl (fun n c => 10 * n + (c.toNat - '0'.toNat)) 0
    if n < 4294967295 then some n else none
  else none

def isArrayIndex (key : String) : Bool := (asArrayIndex key).isSome

/-- The order `Object.entries` (and `Object.keys`) follows: array-index keys in
ascending numeric order first, then every other key in creation order. -/
def objectEntries {α : Type} (o : JSObject α) : List (String × α) :=
  (o.filter (fun e => isArrayIndex e.1)).insertionSort
      (fun a b => (asArrayIndex a.1).getD 0 ≤ (asArrayIndex b.1).getD 0)
    ++ o.filter (fun e => !isArrayIndex e.1)

/-- Names every plain object inherits from `Object.prototype` in a browser. Each
is bound to a function, except `__proto__` which reads as the prototype object;
all of them are truthy. -/
def objectPrototypeKeys : List String :=
  ["constructor", "__defineGetter__", "__defineSetter__", "hasOwnProperty",
   "__lookupGetter__", "__lookupSetter__", "isPrototypeOf", "propertyIsEnumerable",
   "toString", "valueOf", "__proto__", "toLocaleString"]

/-- Result of reading `o[key]` on a plain object. -/
inductive Lookup (α : Type) where
  | own (v : α)
  | inherited (name : String)
  | undefined
  deriving DecidableEq

/-- Property read `o[key]`: an own property wins, then `Object.prototype`. -/
def getProperty {α : Type} (o : JSObject α) (key : String) : Lookup α :=
  match o.lookup key with
  | some v => .own v
  | none => if key ∈ objectPrototypeKeys then .inherited key else .undefined

/-! ## Data received from the backend -/

structure EmotionStats where
  count : Int
  percentage : ℚ
  avg_confidence : ℚ
  deriving DecidableEq

structure Segment where
  timestamp : String
  start_seconds : ℚ
  text : String
  emotion : String
  confidence : ℚ
  deriving DecidableEq

/-- The parsed JSON body of `/analyze`. A field that may be missing is an
`Option`; `success` is the truthiness of `data.success`. -/
structure Response where
  success : Bool
  error : Option String
  duration : Option ℚ
  total_segments : Option Int
  emotion_summary : Option (JSObject EmotionStats)
  results : Option (List Segment)
  deriving DecidableEq

/-! ## `formatDuration` -/

/-- The remainder operator `a % b` on numbers: the result has the sign of `a`. -/
def jsRem (a b : ℚ) : ℚ :=
  if 0 ≤ a / b then a - b * ⌊a / b⌋ else a - b * ⌈a / b⌉

/-- The method `String.prototype.padStart(targetLength, padString)` with a
one-character pad. -/
def padStart (s : String) (targetLength : Nat) (pad : Char) : String :=
  String.mk (List.replicate (targetLength - s.length) pad) ++ s

/-- The function `formatDuration(seconds)` (the same body as `formatSeconds`). -/
def formatDuration (seconds : ℚ) : String :=
  let minutes : Int := ⌊seconds / 60⌋
  let secs : Int := ⌊jsRem seconds 60⌋
  toString minutes ++ ":" ++ padStart (toString secs) 2 '0'

def formatSeconds (seconds : ℚ) : String :=
  let minutes : Int := ⌊seconds / 60⌋
  let secs : Int := ⌊jsRem seconds 60⌋
  toString minutes ++ ":" ++ padStart (toString secs) 2 '0'

/-- The arithmetic and relational operators the script evaluates: `>`, `/`, `%`. -/
inductive Op where
  | greaterThan (a b : Int)
  | divide (a b : ℚ)
  | remainder (a b : ℚ)
  deriving DecidableEq

/-- Operators evaluated by one call of `formatDuration`. -/
def formatDurationOps (seconds : ℚ) : List Op :=
  [.divide seconds 60, .remainder seconds 60]

/-! ## Dominant emotion (`displayResults`, the loop over `Object.entries(summary)`) -/

/-- The loop variables `dominantEmotion` and `maxCount`, with the operators
evaluated so far. -/
structure DominantLoop where
  dominantEmotion : String
  maxCount : Int
  ops : List Op
  deriving DecidableEq

/-- One iteration: `if (stats.count > maxCount) { maxCount = ...; dominantEmotion = ... }`. -/
def dominantStep (st : DominantLoop) (entry : String × EmotionStats) : DominantLoop :=
  let ops := st.ops ++ [Op.greaterThan entry.2.count st.maxCount]
  if entry.2.count > st.maxCount then
    { dominantEmotion := entry.1, maxCount := entry.2.count, ops := ops }
  else
    { st with ops := ops }

/-- The loop started from `dominantEmotion = 'N/A'`, `maxCount = 0`. -/
def dominantLoop (entries : List (String × EmotionStats)) : DominantLoop :=
  entries.foldl dominantStep { dominantEmotion := "N/A", maxCount := 0, ops := [] }

def findDominant (summary : JSObject EmotionStats) : DominantLoop :=
  dominantLoop (objectEntries summary)

/-! ## Emotion scale -/

def emotionColors : JSObject String :=
  [("Very Happy", "#2e7d32"), ("Happy", "#4caf50"), ("Positive", "#8bc34a"),
   ("Negative", "#ff9800"), ("Sad", "#f44336"), ("Very Sad", "#c62828")]

def emotionToNumber : JSObject Int :=
  [("Very Sad", 1), ("Sad", 2), ("Negative", 3), ("Positive", 4), ("Happy", 5),
   ("Very Happy", 6)]

def reverseMapping : List (Int × String) :=
  [(1, "Very Sad"), (2, "Sad"), (3, "Negative"), (4, "Positive"), (5, "Happy"),
   (6, "Very Happy")]

/-- A value that is either of the expected type or a member inherited from
`Object.prototype` (a function object, or the prototype itself). -/
inductive Value (α : Type) where
  | plain (v : α)
  | builtin (name : String)
  deriving DecidableEq

/-- The expression `emotionToNumber[emotion] || 3`. -/
def rankOf (emotion : String) : Value Int :=
  match getProperty emotionToNumber emotion with
  | .own v => if v = 0 then .plain 3 else .plain v
  | .inherited name => .builtin name
  | .undefined => .plain 3

/-- The expression `emotionColors[emotion] || '#999'`. -/
def colorOf (emotion : String) : Value String :=
  match getProperty emotionColors emotion with
  | .own v => if v = "" then .plain "#999" else .plain v
  | .inherited name => .builtin name
  | .undefined => .plain "#999"

/-- The y-axis tick callback `reverseMapping[value] || ''`. The key read is the
number's canonical string, which is one of `"1"` … `"6"` exactly when the number
is that integer and is never the name of an `Object.prototype` member. -/
def labelOf (value : ℚ) : String :=
  if value.den = 1 then
    match reverseMapping.lookup value.num with
    | some label => if label = "" then "" else label
    | none => ""
  else ""

/-- The x-axis tick callback `Math.floor(value) + 's'`. -/
def xTick (value : ℚ) : String :=
  toString (⌊value⌋ : Int) ++ "s"

/-! ## Charts -/

structure DataPoint where
  x : ℚ
  y : Value Int
  emotion : String
  text : String
  deriving DecidableEq

/-- The array `dataPoints` of `createEmotionTimelineChart`. -/
def dataPoints (results : List Segment) : List DataPoint :=
  results.map (fun r =>
    { x := r.start_seconds, y := rankOf r.emotion, emotion := r.emotion, text := r.text })

/-- The two canvases a chart is drawn on. -/
inductive Canvas where
  | emotionPieChart
  | emotionTimelineChart
  deriving DecidableEq

inductive ChartConfig where
  | doughnut (labels : List String) (data : List Int) (backgroundColor : List (Value String))
  | line (data : List DataPoint) (pointBackgroundColor : List (Value String))
  deriving DecidableEq

/-- A chart object: `id` is its identity. -/
structure Chart where
  id : Nat
  canvas : Canvas
  config : ChartConfig
  deriving DecidableEq

inductive ChartEvent where
  | created (id : Nat) (canvas : Canvas)
  | destroyed (id : Nat)
  deriving DecidableEq

inductive Display where
  | none
  | block
  deriving DecidableEq

/-! ## The page -/

/-- The state the script reads and writes: its globals (`selectedFile`,
`emotionPieChart`, `emotionTimelineChart`), the DOM nodes it touches, and the
chart library's instances (`liveCharts`: created and not destroyed; `chartLog`:
every creation and destruction in order; `nextChartId`: the next fresh identity). -/
structure Page where
  selectedFile : Option String
  emotionPieChart : Option Chart
  emotionTimelineChart : Option Chart
  uploadLabel : String
  analyzeBtnDisabled : Bool
  resultsSection : Display
  errorSection : Display
  loadingSection : Display
  errorMessage : String
  duration : String
  segments : String
  dominantEmotion : String
  timeline : List Segment
  emotionSummary : List (String × EmotionStats × Value String)
  liveCharts : List (Nat × Canvas)
  chartLog : List ChartEvent
  nextChartId : Nat
  deriving DecidableEq

/-- The page when the script has just been loaded. -/
def Page.initial : Page :=
  { selectedFile := none, emotionPieChart := none, emotionTimelineChart := none,
    uploadLabel := "", analyzeBtnDisabled := true,
    resultsSection := .none, errorSection := .none, loadingSection := .none,
    errorMessage := "", duration := "", segments := "", dominantEmotion := "",
    timeline := [], emotionSummary := [],
    liveCharts := [], chartLog := [], nextChartId := 0 }

/-- The method `chart.destroy()`. -/
def destroyChart (c : Chart) (p : Page) : Page :=
  { p with liveCharts := p.liveCharts.filter (fun l => l.1 ≠ c.id),
           chartLog := p.chartLog ++ [.destroyed c.id] }

/-- The constructor call `new Chart(ctx, config)`: returns the new object. -/
def newChart (canvas : Canvas) (config : ChartConfig) (p : Page) : Chart × Page :=
  ({ id := p.nextChartId, canvas := canvas, config := config },
   { p with liveCharts := p.liveCharts ++ [(p.nextChartId, canvas)],
            chartLog := p.chartLog ++ [.created p.nextChartId canvas],
            nextChartId := p.nextChartId + 1 })

/-- The function `createEmotionPieChart(emotionSummary)`. -/
def createEmotionPieChart (emotionSummary : JSObject EmotionStats) (p : Page) : Page :=
  let p1 := match p.emotionPieChart with
    | some c => destroyChart c p
    | none => p
  let entries := objectEntries emotionSummary
  let labels := entries.map (fun e => e.1)
  let data := entries.map (fun e => e.2.count)
  let colors := labels.map colorOf
  let (chart, p2) := newChart .emotionPieChart (.doughnut labels data colors) p1
  { p2 with emotionPieChart := some chart }

/-- The function `createEmotionTimelineChart(results)`. The second component is
`false` when the call throws: `results.map` on a missing `results`, after the
previous chart has been destroyed. -/
def createEmotionTimelineChart (results : Option (List Segment)) (p : Page) : Page × Bool :=
  let p1 := match p.emotionTimelineChart with
    | some c => destroyChart c p
    | none => p
  match results with
  | none => (p1, false)
  | some rs =>
    let points := dataPoints rs
    let (chart, p2) :=
      newChart .emotionTimelineChart (.line points (points.map (fun q => colorOf q.emotion))) p1
    ({ p2 with emotionTimelineChart := some chart }, true)

/-- The function `displayTimeline(results)`. -/
def displayTimeline (results : List Segment) (p : Page) : Page :=
  { p with timeline := results }

/-- The function `displayEmotionSummary(emotionSummary)`. -/
def displayEmotionSummary (emotionSummary : JSObject EmotionStats) (p : Page) : Page :=
  { p with emotionSummary :=
      (objectEntries emotionSummary).map (fun e => (e.1, e.2, colorOf e.1)) }

/-- The function `showError(message)`. -/
def showError (message : String) (p : Page) : Page :=
  { p with errorSection := .block, errorMessage := message }

/-- The function `displayResults(data)`. The second component is `false` when
the call throws: `Object.entries` on a missing `emotion_summary`, or the
timeline chart on a missing `results`. -/
def displayResults (data : Response) (p : Page) : Page × Bool :=
  let p1 := { p with resultsSection := .block }
  let p2 := { p1 with
    duration := (match data.duration with
      | some d => formatDuration d
      | none => "NaN:NaN"),
    segments := (match data.total_segments with
      | some n => toString n
      | none => "") }
  match data.emotion_summary with
  | none => (p2, false)
  | some summary =>
    let p3 := { p2 with dominantEmotion := (findDominant summary).dominantEmotion }
    let p4 := createEmotionPieChart summary p3
    match createEmotionTimelineChart data.results p4, data.results with
    | (p5, true), some rs => (displayEmotionSummary summary (displayTimeline rs p5), true)
    | (p5, _), _ => (p5, false)

/-- What the two awaits of the click handler produce: `fetch` rejects; or
`response.json()` rejects (the body is not JSON); or the body parses to an object. -/
inductive FetchOutcome where
  | transportFailure
  | malformedResponse
  | response (data : Response)
  deriving DecidableEq

/-- The `catch` block of the click handler. -/
def catchBlock (p : Page) : Page :=
  showError "Network error. Please check your connection and try again."
    { p with loadingSection := .none }

/-- The expression `data.error || 'Analysis failed. Please try again.'`. -/
def errorOrFallback (error : Option String) : String :=
  match error with
  | some e => if e = "" then "Analysis failed. Please try again." else e
  | none => "Analysis failed. Please try again."

/-- The `change` handler of the file input. -/
def fileChange (file : Option String) (p : Page) : Page :=
  match file with
  | some name =>
    { p with selectedFile := some name, uploadLabel := name, analyzeBtnDisabled := false }
  | none => { p with selectedFile := none }

/-- The `click` handler of the analyze button, run to completion. -/
def analyzeClick (fetched : FetchOutcome) (p : Page) : Page :=
  match p.selectedFile with
  | none => p
  | some _ =>
    let p1 := { p with resultsSection := .none, errorSection := .none,
                       loadingSection := .block }
    match fetched with
    | .transportFailure => catchBlock p1
    | .malformedResponse => catchBlock p1
    | .response data =>
      let p2 := { p1 with loadingSection := .none }
      if data.success then
        match displayResults data p2 with
        | (p3, true) => p3
        | (p3, false) => catchBlock p3
      else
        showError (errorOrFallback data.error) p2

/-- One call of a chart function. -/
inductive ChartCall where
  | pie (emotionSummary : JSObject EmotionStats)
  | timeline (results : Option (List Segment))
  deriving DecidableEq

def ChartCall.canvas : ChartCall → Canvas
  | .pie _ => .emotionPieChart
  | .timeline _ => .emotionTimelineChart

def runCall (p : Page) (call : ChartCall) : Page :=
  match call with
  | .pie s => createEmotionPieChart s p
  | .timeline r => (createEmotionTimelineChart r p).1

def runCalls (calls : List ChartCall) (p : Page) : Page :=
  calls.foldl runCall p

/-- The chart variable that belongs to a canvas. -/
def Page.handle (p : Page) : Canvas → Option Chart
  | .emotionPieChart => p.emotionPieChart
  | .emotionTimelineChart => p.emotionTimelineChart

/-- Live chart instances drawn on a canvas. -/
def Page.liveOn (p : Page) (canvas : Canvas) : List (Nat × Canvas) :=
  p.liveCharts.filter (fun l => l.2 = canvas)

/-! ## Predicates used in the statements -/

/-- Label `d` is the label of the first entry of `entries` whose count is the
maximum over all entries. -/
def IsFirstMax (entries : List (String × EmotionStats)) (d : String) : Prop :=
  ∃ pre e post, entries = pre ++ e :: post ∧ d = e.1 ∧
    (∀ x ∈ pre, x.2.count < e.2.count) ∧ (∀ x ∈ post, x.2.count ≤ e.2.count)

/-- The emotion labels of a segment sequence, in order. -/
def emotionsOf (results : List Segment) : List String :=
  results.map (fun r => r.emotion)

/-- The summary holds the per-label counts of the segment sequence: its labels
are distinct, they are the labels that occur, and each count is the number of
segments carrying the label. -/
def HoldsCounts (summary : JSObject EmotionStats) (results : List Segment) : Prop :=
  (summary.map Prod.fst).Nodup ∧
  (∀ e ∈ summary, e.1 ∈ emotionsOf results) ∧
  (∀ r ∈ results, r.emotion ∈ summary.map Prod.fst) ∧
  (∀ e ∈ summary, e.2.count = ((emotionsOf results).count e.1 : Nat))

/-- Label `d` has the maximum count in the summary and, among the labels holding
that maximum, the earliest first segment. -/
def IsDominantByFirstSegment (summary : JSObject EmotionStats) (results : List Segment)
    (d : String) : Prop :=
  ∃ e ∈ summary, d = e.1 ∧ (∀ x ∈ summary, x.2.count ≤ e.2.count) ∧
    (∀ x ∈ summary, x.2.count = e.2.count →
      (emotionsOf results).indexOf e.1 ≤ (emotionsOf results).indexOf x.1)

/-- Whether a call runs to its `new Chart`. -/
def ChartCall.completes : ChartCall → Bool
  | .pie _ => true
  | .timeline results => results.isSome

/-- The live charts remaining once the chart held for `canvas` is destroyed. -/
def liveAfterDestroy (p : Page) (canvas : Canvas) : List (Nat × Canvas) :=
  match p.handle canvas with
  | some c => p.liveCharts.filter (fun l => l.1 ≠ c.id)
  | none => p.liveCharts

/-- What the chart variables and the live instances satisfy at any time: every
identity in use is below the next fresh one, and the live instances on a canvas
are none or exactly the instance held in that canvas's variable. -/
def ChartsInv (p : Page) : Prop :=
  (∀ l ∈ p.liveCharts, l.1 < p.nextChartId) ∧
  (∀ c h, p.handle c = some h → h.id < p.nextChartId) ∧
  (∀ c, p.liveOn c = [] ∨ ∃ h, p.handle c = some h ∧ p.liveOn c = [(h.id, c)])

/-! # Theorems -/

/-! ## `formatDuration` -/

theorem rankOf_canonical :
    rankOf "Very Sad" = .plain 1 ∧ rankOf "Sad" = .plain 2 ∧ rankOf "Negative" = .plain 3 ∧
    rankOf "Positive" = .plain 4 ∧ rankOf "Happy" = .plain 5 ∧ rankOf "Very Happy" = .plain 6 := by
  refine ⟨?_, ?_, ?_, ?_, ?_, ?_⟩ <;> rfl

/-- A label that is neither canonical nor the name of an `Object.prototype`
member has rank 3. -/
theorem rankOf_unknown (label : String)
    (h : label ∉ emotionToNumber.map Prod.fst) (hp : label ∉ objectPrototypeKeys) :
    rankOf label = .plain 3 := by
  simp only [emotionToNumber, List.map, List.mem_cons, List.mem_nil_iff, not_or, or_false] at h
  obtain ⟨h1, h2, h3, h4, h5, h6⟩ := h
  have e1 : (label == "Very Sad") = false := beq_eq_false_iff_ne.mpr h1
  have e2 : (label == "Sad") = false := beq_eq_false_iff_ne.mpr h2
  have e3 : (label == "Negative") = false := beq_eq_false_iff_ne.mpr h3
  have e4 : (label == "Positive") = false := beq_eq_false_iff_ne.mpr h4
  have e5 : (label == "Happy") = false := beq_eq_false_iff_ne.mpr h5
  have e6 : (label == "Very Happy") = false := beq_eq_false_iff_ne.mpr h6
  unfold rankOf getProperty
  simp only [emotionToNumber, List.lookup, e1, e2, e3, e4, e5, e6, hp, if_false]

theorem labelOf_int (r : ℤ) :
    labelOf (r : ℚ) = match reverseMapping.lookup r with
      | some label => if label = "" then "" else label
      | none => "" := by
  unfold labelOf
  simp

theorem labelOf_outside (q : ℚ) (h : ∀ r : ℤ, 1 ≤ r → r ≤ 6 → q ≠ r) : labelOf q = "" := by
  unfold labelOf
  split_ifs with hden
  · have hq : q = (q.num : ℚ) := (Rat.den_eq_one_iff q).mp hden |>.symm
    have hn : q.num < 1 ∨ 6 < q.num := by
      by_contra hc
      push_neg at hc
      exact h q.num hc.1 hc.2 hq
    have h1 : q.num ≠ 1 := by omega
    have h2 : q.num ≠ 2 := by omega
    have h3 : q.num ≠ 3 := by omega
    have h4 : q.num ≠ 4 := by omega
    have h5 : q.num ≠ 5 := by omega
    have h6 : q.num ≠ 6 := by omega
    have e1 : (q.num == 1) = false := beq_eq_false_iff_ne.mpr h1
    have e2 : (q.num == 2) = false := beq_eq_false_iff_ne.mpr h2
    have e3 : (q.num == 3) = false := beq_eq_false_iff_ne.mpr h3
    have e4 : (q.num == 4) = false := beq_eq_false_iff_ne.mpr h4
    have e5 : (q.num == 5) = false := beq_eq_false_iff_ne.mpr h5
    have e6 : (q.num == 6) = false := beq_eq_false_iff_ne.mpr h6
    simp only [reverseMapping, List.lookup, e1, e2, e3, e4, e5, e6]
  · rfl

/-- C3 at a label the table inherits: the rank read for `"constructor"` is the
inherited function, not the number 3, although `"constructor"` is none of the
six canonical labels. -/
theorem rankOf_constructor :
    "constructor" ∉ emotionToNumber.map Prod.fst ∧
    rankOf "constructor" = Value.builtin "constructor" ∧
    rankOf "constructor" ≠ Value.plain 3 := by
  refine ⟨by decide, rfl, by decide⟩

/-- C9. The rank table and the tick table are inverse to each other: every
canonical label `l` has a numeric rank `r` with `labelOf r = l`, every integer
`r` from 1 to 6 satisfies `rankOf (labelOf r) = r`, and every tick value that is
not one of the integers 1 to 6 has the empty tick label. -/
theorem rankOf_labelOf_inverse :
    (∀ l ∈ emotionToNumber.map Prod.fst,
        ∃ r : ℤ, 1 ≤ r ∧ r ≤ 6 ∧ rankOf l = .plain r ∧ labelOf (r : ℚ) = l) ∧
    (∀ r : ℤ, 1 ≤ r → r ≤ 6 → rankOf (labelOf (r : ℚ)) = .plain r) ∧
    (∀ q : ℚ, (∀ r : ℤ, 1 ≤ r → r ≤ 6 → q ≠ r) → labelOf q = "") := by
  refine ⟨?_, ?_, labelOf_outside⟩
  · intro l hl
    simp only [emotionToNumber, List.map, List.mem_cons, List.mem_nil_iff, or_false] at hl
    rcases hl with rfl | rfl | rfl | rfl | rfl | rfl
    · exact ⟨1, by norm_num, by norm_num, rfl, by rw [labelOf_int]; rfl⟩
    · exact ⟨2, by norm_num, by norm_num, rfl, by rw [labelOf_int]; rfl⟩
    · exact ⟨3, by norm_num, by norm_num, rfl, by rw [labelOf_int]; rfl⟩
    · exact ⟨4, by norm_num, by norm_num, rfl, by rw [labelOf_int]; rfl⟩
    · exact ⟨5, by norm_num, by norm_num, rfl, by rw [labelOf_int]; rfl⟩
    · exact ⟨6, by norm_num, by norm_num, rfl, by rw [labelOf_int]; rfl⟩
  · intro r h1 h6
    rw [labelOf_int]
    interval_cases r <;> rfl

theorem rankOf_labelOf_inverse_witness :
    (∃ r : ℤ, 1 ≤ r ∧ r ≤ 6 ∧ rankOf "Happy" = .plain r ∧ labelOf (r : ℚ) = "Happy") ∧
    rankOf (labelOf ((2 : ℤ) : ℚ)) = .plain 2 ∧
    labelOf 7 = "" ∧ labelOf (3 / 2) = "" :=
  ⟨rankOf_labelOf_inverse.1 "Happy" (by decide),
   rankOf_labelOf_inverse.2.1 2 (by norm_num) (by norm_num),
   rankOf_labelOf_inverse.2.2 7 (by
     intro r h1 h6 h
     have h7 : (7 : ℤ) = r := by exact_mod_cast h
     omega),
   rankOf_labelOf_inverse.2.2 (3 / 2) (by
     intro r h1 h6 h
     have h2 : (3 : ℚ) = 2 * r := by linarith
     have h3 : (3 : ℤ) = 2 * r := by exact_mod_cast h2
     omega)⟩

/-! ## Dominant emotion -/

theorem mem_objectEntries {α : Type} (o : JSObject α) (x : String × α) :
    x ∈ objectEntries o ↔ x ∈ o := by
  unfold objectEntries
  rw [List.mem_append, (List.perm_insertionSort _ _).mem_iff, List.mem_filter, List.mem_filter]
  constructor
  · rintro (⟨h, -⟩ | ⟨h, -⟩) <;> exact h
  · intro h
    cases hx : isArrayIndex x.1
    · right; exact ⟨h, by simp [hx]⟩
    · left; exact ⟨h, by simp [hx]⟩

theorem dominantStep_fields (st : DominantLoop) (e : String × EmotionStats) :
    (st.maxCount < e.2.count →
      (dominantStep st e).dominantEmotion = e.1 ∧ (dominantStep st e).maxCount = e.2.count) ∧
    (e.2.count ≤ st.maxCount →
      (dominantStep st e).dominantEmotion = st.dominantEmotion ∧
      (dominantStep st e).maxCount = st.maxCount) := by
  unfold dominantStep
  constructor
  · intro h
    simp [h]
  · intro h
    have : ¬ e.2.count > st.maxCount := by omega
    simp [this]

/-- The loop from any starting state: either no entry beats the starting
`maxCount` and the loop variables are unchanged, or the result is the first
entry holding the maximum. -/
theorem foldl_dominantStep (l : List (String × EmotionStats)) :
    ∀ st : DominantLoop,
      ((∀ x ∈ l, x.2.count ≤ st.maxCount) ∧
        (l.foldl dominantStep st).dominantEmotion = st.dominantEmotion ∧
        (l.foldl dominantStep st).maxCount = st.maxCount) ∨
      (∃ pre e post, l = pre ++ e :: post ∧
        (∀ x ∈ pre, x.2.count < e.2.count) ∧ st.maxCount < e.2.count ∧
        (∀ x ∈ post, x.2.count ≤ e.2.count) ∧
        (l.foldl dominantStep st).dominantEmotion = e.1 ∧
        (l.foldl dominantStep st).maxCount = e.2.count) := by
  induction l with
  | nil =>
    intro st
    left
    simp
  | cons a rest ih =>
    intro st
    rw [List.foldl_cons]
    by_cases ha : st.maxCount < a.2.count
    · obtain ⟨hd, hm⟩ := (dominantStep_fields st a).1 ha
      rcases ih (dominantStep st a) with ⟨hall, h1, h2⟩ | ⟨pre, e, post, hl, hpre, hlt, hpost, h1, h2⟩
      · right
        refine ⟨[], a, rest, rfl, by simp, ha, ?_, ?_, ?_⟩
        · intro x hx
          have := hall x hx
          omega
        · rw [h1, hd]
        · rw [h2, hm]
      · right
        refine ⟨a :: pre, e, post, by rw [hl]; rfl, ?_, by omega, hpost, h1, h2⟩
        intro x hx
        rcases List.mem_cons.mp hx with rfl | hx
        · omega
        · exact hpre x hx
    · have ha2 : a.2.count ≤ st.maxCount := by omega
      obtain ⟨hd, hm⟩ := (dominantStep_fields st a).2 ha2
      rcases ih (dominantStep st a) with ⟨hall, h1, h2⟩ | ⟨pre, e, post, hl, hpre, hlt, hpost, h1, h2⟩
      · left
        refine ⟨?_, by rw [h1, hd], by rw [h2, hm]⟩
        intro x hx
        rcases List.mem_cons.mp hx with rfl | hx
        · exact ha2
        · have := hall x hx
          omega
      · right
        refine ⟨a :: pre, e, post, by rw [hl]; rfl, ?_, by omega, hpost, h1, h2⟩
        intro x hx
        rcases List.mem_cons.mp hx with rfl | hx
        · omega
        · exact hpre x hx

/-- On a non-empty list of entries with positive counts the loop ends on the
first entry that holds the maximum count. -/
theorem dominantLoop_isFirstMax (entries : List (String × EmotionStats))
    (hne : entries ≠ []) (hpos : ∀ e ∈ entries, 1 ≤ e.2.count) :
    IsFirstMax entries (dominantLoop entries).dominantEmotion := by
  unfold dominantLoop
  rcases foldl_dominantStep entries { dominantEmotion := "N/A", maxCount := 0, ops := [] } with
    ⟨hall, -, -⟩ | ⟨pre, e, post, hl, hpre, -, hpost, h1, -⟩
  · exfalso
    obtain ⟨a, rest, rfl⟩ := List.exists_cons_of_ne_nil hne
    have h1 := hall a (List.mem_cons_self _ _)
    have h2 := hpos a (List.mem_cons_self _ _)
    simp only at h1
    omega
  · exact ⟨pre, e, post, hl, h1, hpre, hpost⟩

/-- The text `displayResults` writes into `#dominantEmotion`. -/
theorem displayResults_dominantEmotion (data : Response) (p : Page)
    (summary : JSObject EmotionStats) (h : data.emotion_summary = some summary) :
    (displayResults data p).1.dominantEmotion = (findDominant summary).dominantEmotion := by
  unfold displayResults
  simp only [h]
  cases hr : data.results with
  | none =>
    simp only [createEmotionTimelineChart, createEmotionPieChart, newChart]
    cases p.emotionPieChart <;> cases p.emotionTimelineChart <;> rfl
  | some rs =>
    simp only [createEmotionTimelineChart, createEmotionPieChart, newChart]
    cases p.emotionPieChart <;> cases p.emotionTimelineChart <;> rfl

/-- The loop evaluates comparisons only, whatever the summary. -/
theorem findDominant_ops (summary : JSObject EmotionStats) :
    ∀ op ∈ (findDominant summary).ops, ∃ a b, op = Op.greaterThan a b := by
  unfold findDominant dominantLoop
  generalize objectEntries summary = l
  have gen : ∀ (l : List (String × EmotionStats)) (st : DominantLoop),
      (∀ op ∈ st.ops, ∃ a b, op = Op.greaterThan a b) →
      ∀ op ∈ (l.foldl dominantStep st).ops, ∃ a b, op = Op.greaterThan a b := by
    intro l
    induction l with
    | nil => intro st h; exact h
    | cons e rest ih =>
      intro st h
      rw [List.foldl_cons]
      apply ih
      intro op hop
      have hops : (dominantStep st e).ops = st.ops ++ [Op.greaterThan e.2.count st.maxCount] := by
        unfold dominantStep
        split_ifs <;> rfl
      rw [hops] at hop
      rcases List.mem_append.mp hop with hop | hop
      · exact h op hop
      · exact ⟨_, _, List.mem_singleton.mp hop⟩
  exact gen l _ (by simp)

/-- C5. When the emotion summary is empty, `displayResults` writes the sentinel
`"N/A"` as dominant emotion, and the loop that computes it evaluates no operator
at all, so no division. -/
theorem dominant_empty_is_sentinel (data : Response) (p : Page) :
    (displayResults { data with emotion_summary := some [] } p).1.dominantEmotion = "N/A" ∧
    (findDominant []).ops = [] ∧
    (∀ a b : ℚ, Op.divide a b ∉ (findDominant []).ops ∧
      Op.remainder a b ∉ (findDominant []).ops) := by
  refine ⟨?_, rfl, ?_⟩
  · rw [displayResults_dominantEmotion _ p [] rfl]
    rfl
  · intro a b
    have h : (findDominant []).ops = [] := rfl
    rw [h]
    simp

theorem objectEntries_numeric_first :
    objectEntries [("b", (1 : Nat)), ("10", 2), ("2", 3), ("a", 4), ("01", 5)]
      = [("2", 3), ("10", 2), ("b", 1), ("a", 4), ("01", 5)] := by
  decide

/-- C8, as stated, at two concrete responses. With segments Happy, Sad and the
summary listing Sad before Happy (one each), the summary holds the counts but
`displayResults` writes `"Sad"`, whose first segment comes after that of the
tied label Happy. With no segments and an empty summary it writes `"N/A"`, which
is no label of the summary. -/
theorem dominant_by_first_segment_fails :
    (HoldsCounts [("Sad", ⟨1, 50, 80⟩), ("Happy", ⟨1, 50, 90⟩)]
        [⟨"0:00", 0, "a", "Happy", 90⟩, ⟨"0:05", 5, "b", "Sad", 80⟩] ∧
      (displayResults
          { success := true, error := none, duration := some 10, total_segments := some 2,
            emotion_summary := some [("Sad", ⟨1, 50, 80⟩), ("Happy", ⟨1, 50, 90⟩)],
            results := some [⟨"0:00", 0, "a", "Happy", 90⟩, ⟨"0:05", 5, "b", "Sad", 80⟩] }
          Page.initial).1.dominantEmotion = "Sad" ∧
      ¬ IsDominantByFirstSegment [("Sad", ⟨1, 50, 80⟩), ("Happy", ⟨1, 50, 90⟩)]
          [⟨"0:00", 0, "a", "Happy", 90⟩, ⟨"0:05", 5, "b", "Sad", 80⟩] "Sad") ∧
    (HoldsCounts [] [] ∧
      (displayResults
          { success := true, error := none, duration := some 0, total_segments := some 0,
            emotion_summary := some [], results := some [] }
          Page.initial).1.dominantEmotion = "N/A" ∧
      ¬ IsDominantByFirstSegment [] [] "N/A") := by
  refine ⟨⟨?_, ?_, ?_⟩, ⟨?_, ?_, ?_⟩⟩
  · unfold HoldsCounts emotionsOf
    decide
  · decide
  · unfold IsDominantByFirstSegment emotionsOf
    decide
  · unfold HoldsCounts emotionsOf
    decide
  · decide
  · unfold IsDominantByFirstSegment
    simp

/-- C8, amended. For every response with at least one segment whose emotion
summary holds the per-label counts of its segment sequence and lists the labels,
in `Object.entries` order, by first occurrence in the segment sequence, the
dominant emotion `displayResults` writes is a label with maximum count, and among
the labels that tie for the maximum it is the one whose first segment is earliest. -/
theorem dominant_by_first_segment (data : Response) (p : Page)
    (summary : JSObject EmotionStats) (results : List Segment)
    (hsummary : data.emotion_summary = some summary)
    (hresults : data.results = some results)
    (hne : results ≠ [])
    (hcounts : HoldsCounts summary results)
    (horder : (objectEntries summary).Pairwise (fun a b =>
      (emotionsOf results).indexOf a.1 < (emotionsOf results).indexOf b.1)) :
    IsDominantByFirstSegment summary results (displayResults data p).1.dominantEmotion := by
  obtain ⟨-, hin, hall, hcnt⟩ := hcounts
  rw [displayResults_dominantEmotion data p summary hsummary]
  unfold findDominant
  have hpos : ∀ e ∈ objectEntries summary, 1 ≤ e.2.count := by
    intro e he
    have he2 := (mem_objectEntries summary e).mp he
    rw [hcnt e he2]
    have := List.count_pos_iff.mpr (hin e he2)
    omega
  have hne2 : objectEntries summary ≠ [] := by
    obtain ⟨r, rest, rfl⟩ := List.exists_cons_of_ne_nil hne
    have hr := hall r (List.mem_cons_self _ _)
    obtain ⟨e, he, -⟩ := List.mem_map.mp hr
    intro hnil
    have := (mem_objectEntries summary e).mpr he
    rw [hnil] at this
    simp at this
  obtain ⟨pre, e, post, hl, hd, hpre, hpost⟩ :=
    dominantLoop_isFirstMax (objectEntries summary) hne2 hpos
  have hmem : ∀ x, x ∈ summary ↔ x ∈ pre ∨ x = e ∨ x ∈ post := by
    intro x
    rw [← mem_objectEntries, hl, List.mem_append, List.mem_cons]
  refine ⟨e, (hmem e).mpr (Or.inr (Or.inl rfl)), hd, ?_, ?_⟩
  · intro x hx
    rcases (hmem x).mp hx with h | rfl | h
    · exact le_of_lt (hpre x h)
    · exact le_refl _
    · exact hpost x h
  · intro x hx htie
    rcases (hmem x).mp hx with h | rfl | h
    · have := hpre x h
      omega
    · exact le_refl _
    · rw [hl, List.pairwise_append] at horder
      obtain ⟨-, hpw, -⟩ := horder
      exact le_of_lt ((List.pairwise_cons.mp hpw).1 x h)

theorem dominant_by_first_segment_witness :
    IsDominantByFirstSegment [("Happy", ⟨1, 50, 90⟩), ("Sad", ⟨1, 50, 80⟩)]
      [⟨"0:00", 0, "a", "Happy", 90⟩, ⟨"0:05", 5, "b", "Sad", 80⟩]
      (displayResults
        { success := true, error := none, duration := some 10, total_segments := some 2,
          emotion_summary := some [("Happy", ⟨1, 50, 90⟩), ("Sad", ⟨1, 50, 80⟩)],
          results := some [⟨"0:00", 0, "a", "Happy", 90⟩, ⟨"0:05", 5, "b", "Sad", 80⟩] }
        Page.initial).1.dominantEmotion :=
  dominant_by_first_segment _ Page.initial
    [("Happy", ⟨1, 50, 90⟩), ("Sad", ⟨1, 50, 80⟩)]
    [⟨"0:00", 0, "a", "Happy", 90⟩, ⟨"0:05", 5, "b", "Sad", 80⟩]
    rfl rfl (by simp) (by unfold HoldsCounts emotionsOf; decide) (by unfold emotionsOf; decide)

/-! ## Timeline projection -/

/-- C2. For every sequence of segments, `createEmotionTimelineChart` builds a
chart whose data points are as many as the segments; the i-th point has the
i-th segment's `start_seconds` as `x` and carries its `emotion` and `text`
unchanged, so the `x` values are the `start_seconds` values in the order and
multiplicity given. Segments at 0, 5, 10 with emotions Happy, Happy, Sad give the
points (0,5), (5,5), (10,2); segments at 5, 5, 0 keep that order. -/
theorem timeline_points_preserve_input (results : List Segment) (p : Page) :
    (∃ chart colors,
      (createEmotionTimelineChart (some results) p).1.emotionTimelineChart = some chart ∧
      chart.config = .line (dataPoints results) colors) ∧
    (dataPoints results).length = results.length ∧
    (∀ i : Nat, ((dataPoints results)[i]?).map (fun q => (q.x, q.emotion, q.text))
      = (results[i]?).map (fun r => (r.start_seconds, r.emotion, r.text))) ∧
    (dataPoints results).map (fun q => q.x) = results.map (fun r => r.start_seconds) ∧
    (dataPoints [⟨"0:00", 0, "a", "Happy", 90⟩, ⟨"0:05", 5, "b", "Happy", 70⟩,
        ⟨"0:10", 10, "c", "Sad", 80⟩]).map (fun q => (q.x, q.y))
      = [(0, .plain 5), (5, .plain 5), (10, .plain 2)] ∧
    (dataPoints [⟨"0:05", 5, "a", "Sad", 90⟩, ⟨"0:05", 5, "b", "Happy", 70⟩,
        ⟨"0:00", 0, "c", "Sad", 80⟩]).map (fun q => (q.x, q.y))
      = [(5, .plain 2), (5, .plain 5), (0, .plain 2)] := by
  refine ⟨?_, ?_, ?_, ?_, ?_, ?_⟩
  · unfold createEmotionTimelineChart newChart
    cases p.emotionTimelineChart <;> exact ⟨_, _, rfl, rfl⟩
  · simp [dataPoints]
  · intro i
    simp only [dataPoints, List.getElem?_map, Option.map_map]
    rfl
  · simp [dataPoints]
  · decide
  · decide

/-! ## The click handler -/

/-- C6, as stated, at two concrete failure responses. With `error: "undefined"`
the message shown is `"undefined"`; with `error: ""` the message shown is the
generic fallback, not the error string provided. -/
theorem error_message_claim_fails :
    (analyzeClick
        (.response { success := false, error := some "undefined", duration := none,
                     total_segments := none, emotion_summary := none, results := none })
        (fileChange (some "a.wav") Page.initial)).errorMessage = "undefined" ∧
    (analyzeClick
        (.response { success := false, error := some "", duration := none,
                     total_segments := none, emotion_summary := none, results := none })
        (fileChange (some "a.wav") Page.initial)).errorMessage ≠ "" := by
  constructor <;> decide

/-- C6, amended. For every application-failure response (`success` false,
submitted with a file selected) the error section is shown with: the response's
error string when one is provided and it is not empty; the generic fallback
`'Analysis failed. Please try again.'` when the error field is absent or empty.
The message is never empty, and it is `"undefined"` only when the error string
of the response is itself `"undefined"`. -/
theorem error_message_or_fallback (data : Response) (p : Page) (file : String)
    (hfile : p.selectedFile = some file) (hfail : data.success = false) :
    (analyzeClick (.response data) p).errorSection = .block ∧
    (∀ e, data.error = some e → e ≠ "" →
      (analyzeClick (.response data) p).errorMessage = e) ∧
    (data.error = none ∨ data.error = some "" →
      (analyzeClick (.response data) p).errorMessage = "Analysis failed. Please try again.") ∧
    (analyzeClick (.response data) p).errorMessage ≠ "" ∧
    ((analyzeClick (.response data) p).errorMessage = "undefined" →
      data.error = some "undefined") := by
  have hmsg : (analyzeClick (.response data) p).errorMessage = errorOrFallback data.error := by
    unfold analyzeClick
    simp [hfile, hfail, showError]
  have hsec : (analyzeClick (.response data) p).errorSection = .block := by
    unfold analyzeClick
    simp [hfile, hfail, showError]
  rw [hmsg]
  refine ⟨hsec, ?_, ?_, ?_, ?_⟩
  · intro e he hne
    simp [errorOrFallback, he, hne]
  · rintro (h | h) <;> simp [errorOrFallback, h]
  · cases he : data.error with
    | none => simp only [errorOrFallback]; decide
    | some e =>
      by_cases hne : e = ""
      · simp only [errorOrFallback, hne, if_true]; decide
      · simp [errorOrFallback, hne]
  · cases he : data.error with
    | none => simp only [errorOrFallback]; decide
    | some e =>
      by_cases hne : e = ""
      · simp only [errorOrFallback, hne, if_true]; decide
      · simp [errorOrFallback, hne]

theorem error_message_or_fallback_witness :
    (analyzeClick
        (.response { success := false, error := some "Unsupported file", duration := none,
                     total_segments := none, emotion_summary := none, results := none })
        (fileChange (some "a.wav") Page.initial)).errorMessage = "Unsupported file" :=
  (error_message_or_fallback
      { success := false, error := some "Unsupported file", duration := none,
        total_segments := none, emotion_summary := none, results := none }
      (fileChange (some "a.wav") Page.initial) "a.wav" rfl rfl).2.1
    "Unsupported file" rfl (by decide)

/-- A request that ends in a transport failure, a malformed body or an
application failure leaves the error section shown, the loading section hidden
and the results section hidden. -/
theorem analyzeClick_error_paths (fetched : FetchOutcome) (p : Page) (file : String)
    (hfile : p.selectedFile = some file)
    (hpath : fetched = .transportFailure ∨ fetched = .malformedResponse ∨
      ∃ data, fetched = .response data ∧ data.success = false) :
    (analyzeClick fetched p).errorSection = .block ∧
    (analyzeClick fetched p).loadingSection = .none ∧
    (analyzeClick fetched p).resultsSection = .none := by
  rcases hpath with rfl | rfl | ⟨data, rfl, hfail⟩ <;>
    simp [analyzeClick, hfile, catchBlock, showError, *]

/-- A success response whose rendering throws ends with the error section and
the results section both shown. -/
theorem analyzeClick_render_throws (data : Response) (p : Page) (file : String)
    (hfile : p.selectedFile = some file) (hok : data.success = true)
    (hthrow : data.emotion_summary = none ∨ data.results = none) :
    (analyzeClick (.response data) p).errorSection = .block ∧
    (analyzeClick (.response data) p).loadingSection = .none ∧
    (analyzeClick (.response data) p).resultsSection = .block := by
  have h2 : ∀ q : Page, (displayResults data q).2 = false ∧
      (displayResults data q).1.resultsSection = .block := by
    intro q
    unfold displayResults
    rcases hthrow with h | h
    · simp [h]
    · cases hs : data.emotion_summary with
      | none => simp
      | some summary =>
        simp only [h, createEmotionTimelineChart, createEmotionPieChart, newChart]
        cases q.emotionPieChart <;> cases q.emotionTimelineChart <;> simp [destroyChart]
  have key : ∀ q : Page,
      (match displayResults data q with
        | (p3, true) => p3
        | (p3, false) => catchBlock p3) = catchBlock (displayResults data q).1 := by
    intro q
    have hf := (h2 q).1
    rcases hd : displayResults data q with ⟨p3, b⟩
    rw [hd] at hf
    simp only at hf
    subst hf
    rfl
  unfold analyzeClick
  simp only [hfile, hok, if_true, key]
  simp [catchBlock, showError, (h2 _).2]

/-- C7 at a success response without `emotion_summary`, submitted with a file
selected: the handler ends with the error section shown, the loading section
hidden and the results section still shown. -/
theorem analyzeClick_error_beside_results :
    (analyzeClick
        (.response { success := true, error := none, duration := some 90,
                     total_segments := some 3, emotion_summary := none, results := some [] })
        (fileChange (some "a.wav") Page.initial)).errorSection = .block ∧
    (analyzeClick
        (.response { success := true, error := none, duration := some 90,
                     total_segments := some 3, emotion_summary := none, results := some [] })
        (fileChange (some "a.wav") Page.initial)).loadingSection = .none ∧
    (analyzeClick
        (.response { success := true, error := none, duration := some 90,
                     total_segments := some 3, emotion_summary := none, results := some [] })
        (fileChange (some "a.wav") Page.initial)).resultsSection = .block := by
  refine ⟨?_, ?_, ?_⟩ <;> rfl

/-! ## Chart instances -/

theorem liveAfterDestroy_on (p : Page) (hinv : ChartsInv p) (c0 c : Canvas) :
    ((liveAfterDestroy p c0).filter (fun l => l.2 = c) = [] ∨
      ∃ h, p.handle c = some h ∧ (liveAfterDestroy p c0).filter (fun l => l.2 = c) = [(h.id, c)])
    ∧ (liveAfterDestroy p c0).filter (fun l => l.2 = c0) = [] := by
  obtain ⟨-, -, hc⟩ := hinv
  unfold liveAfterDestroy
  cases h0 : p.handle c0 with
  | none =>
    simp only
    refine ⟨hc c, ?_⟩
    rcases hc c0 with h | ⟨h, hh, -⟩
    · exact h
    · rw [h0] at hh; cases hh
  | some ch =>
    simp only
    have comm : ∀ c', (p.liveCharts.filter (fun l => l.1 ≠ ch.id)).filter (fun l => l.2 = c')
        = (p.liveOn c').filter (fun l => l.1 ≠ ch.id) := by
      intro c'
      unfold Page.liveOn
      rw [List.filter_filter, List.filter_filter]
      congr 1
      funext a
      exact Bool.and_comm _ _
    rw [comm c, comm c0]
    constructor
    · rcases hc c with h | ⟨h, hh, hl⟩
      · left; rw [h]; rfl
      · by_cases hid : h.id = ch.id
        · left; rw [hl]; simp [hid]
        · right; exact ⟨h, hh, by rw [hl]; simp [hid]⟩
    · rcases hc c0 with h | ⟨h, hh, hl⟩
      · rw [h]; rfl
      · rw [h0] at hh
        cases hh
        rw [hl]
        simp

theorem mem_liveAfterDestroy (p : Page) (c0 : Canvas) (l : Nat × Canvas)
    (hl : l ∈ liveAfterDestroy p c0) :
    l ∈ p.liveCharts ∧ ∀ h, p.handle c0 = some h → l.1 ≠ h.id := by
  unfold liveAfterDestroy at hl
  cases h0 : p.handle c0 with
  | none =>
    rw [h0] at hl
    exact ⟨hl, by intro h hh; cases hh⟩
  | some ch =>
    rw [h0] at hl
    simp only [List.mem_filter, decide_eq_true_eq] at hl
    refine ⟨hl.1, ?_⟩
    intro h hh
    cases hh
    exact hl.2

/-- A call that destroys the held chart and then creates and stores a new one
keeps the invariant. -/
theorem inv_replace (p r : Page) (c0 : Canvas) (hinv : ChartsInv p)
    (hlive : r.liveCharts = liveAfterDestroy p c0 ++ [(p.nextChartId, c0)])
    (hnext : r.nextChartId = p.nextChartId + 1)
    (hnew : ∃ h, r.handle c0 = some h ∧ h.id = p.nextChartId)
    (hother : ∀ c, c ≠ c0 → r.handle c = p.handle c) : ChartsInv r := by
  have hon := liveAfterDestroy_on p hinv c0
  obtain ⟨ha, hb, -⟩ := hinv
  obtain ⟨h1, hh1, hid1⟩ := hnew
  refine ⟨?_, ?_, ?_⟩
  · intro l hl
    rw [hlive] at hl
    rw [hnext]
    rcases List.mem_append.mp hl with hl | hl
    · have := ha l (mem_liveAfterDestroy p c0 l hl).1
      omega
    · simp only [List.mem_singleton] at hl
      rw [hl]
      simp
  · intro c h hh
    rw [hnext]
    by_cases hc : c = c0
    · subst hc
      rw [hh1] at hh
      cases hh
      omega
    · rw [hother c hc] at hh
      have := hb c h hh
      omega
  · intro c
    unfold Page.liveOn
    rw [hlive, List.filter_append]
    by_cases hc : c = c0
    · subst hc
      right
      refine ⟨h1, hh1, ?_⟩
      rw [(hon c).2, hid1]
      simp
    · have hc2 : ¬ c0 = c := fun h => hc h.symm
      rcases (hon c).1 with h | ⟨h, hh, hl⟩
      · left
        rw [h]
        simp [hc2]
      · right
        refine ⟨h, by rw [hother c hc]; exact hh, ?_⟩
        rw [hl]
        simp [hc2]

/-- A call that only destroys the held chart keeps the invariant. -/
theorem inv_destroy (p r : Page) (c0 : Canvas) (hinv : ChartsInv p)
    (hlive : r.liveCharts = liveAfterDestroy p c0)
    (hnext : r.nextChartId = p.nextChartId)
    (hsame : ∀ c, r.handle c = p.handle c) : ChartsInv r := by
  have hon := liveAfterDestroy_on p hinv c0
  obtain ⟨ha, hb, -⟩ := hinv
  refine ⟨?_, ?_, ?_⟩
  · intro l hl
    rw [hlive] at hl
    rw [hnext]
    exact ha l (mem_liveAfterDestroy p c0 l hl).1
  · intro c h hh
    rw [hnext]
    rw [hsame c] at hh
    exact hb c h hh
  · intro c
    unfold Page.liveOn
    rw [hlive, hsame c]
    exact (hon c).1

/-- The fields a chart call writes. -/
theorem runCall_fields (p : Page) (call : ChartCall) :
    (runCall p call).liveCharts
      = liveAfterDestroy p call.canvas
        ++ (if call.completes then [(p.nextChartId, call.canvas)] else []) ∧
    (runCall p call).nextChartId
      = (if call.completes then p.nextChartId + 1 else p.nextChartId) ∧
    (call.completes = true →
      ∃ h, (runCall p call).handle call.canvas = some h ∧ h.id = p.nextChartId) ∧
    (call.completes = false → (runCall p call).handle call.canvas = p.handle call.canvas) ∧
    (∀ c, c ≠ call.canvas → (runCall p call).handle c = p.handle c) ∧
    (runCall p call).chartLog
      = p.chartLog
        ++ (match p.handle call.canvas with
            | some h => [.destroyed h.id]
            | none => [])
        ++ (if call.completes then [.created p.nextChartId call.canvas] else []) := by
  cases call with
  | pie s =>
    simp only [runCall, ChartCall.canvas, ChartCall.completes, createEmotionPieChart, newChart,
      liveAfterDestroy, Page.handle, destroyChart]
    cases h : p.emotionPieChart <;>
      refine ⟨by simp [h], by simp [h], by simp [h], by simp [h], ?_, by simp [h]⟩ <;>
      intro c hc <;> cases c <;> simp [h] at hc ⊢
  | timeline results =>
    cases results with
    | none =>
      simp only [runCall, ChartCall.canvas, ChartCall.completes, createEmotionTimelineChart,
        liveAfterDestroy, Page.handle, destroyChart]
      cases h : p.emotionTimelineChart <;>
        refine ⟨by simp [h], by simp [h], by simp [h], by simp [h], ?_, by simp [h]⟩ <;>
        intro c hc <;> cases c <;> simp [h] at hc ⊢
    | some rs =>
      simp only [runCall, ChartCall.canvas, ChartCall.completes, createEmotionTimelineChart,
        newChart, liveAfterDestroy, Page.handle, destroyChart]
      cases h : p.emotionTimelineChart <;>
        refine ⟨by simp [h], by simp [h], by simp [h], by simp [h], ?_, by simp [h]⟩ <;>
        intro c hc <;> cases c <;> simp [h] at hc ⊢

theorem inv_initial : ChartsInv Page.initial := by
  refine ⟨?_, ?_, ?_⟩
  · intro l hl
    simp [Page.initial] at hl
  · intro c h hh
    cases c <;> simp [Page.initial, Page.handle] at hh
  · intro c
    left
    rfl

theorem inv_runCall (p : Page) (call : ChartCall) (hinv : ChartsInv p) :
    ChartsInv (runCall p call) := by
  obtain ⟨hlive, hnext, hnew, hkeep, hother, -⟩ := runCall_fields p call
  cases hcomp : call.completes with
  | true =>
    rw [hcomp] at hlive hnext
    exact inv_replace p _ call.canvas hinv hlive hnext (hnew hcomp) hother
  | false =>
    rw [hcomp] at hlive hnext
    simp only [Bool.false_eq_true, if_false, List.append_nil] at hlive hnext
    refine inv_destroy p _ call.canvas hinv hlive hnext ?_
    intro c
    by_cases hc : c = call.canvas
    · subst hc
      exact hkeep hcomp
    · exact hother c hc

theorem inv_runCalls (calls : List ChartCall) :
    ∀ p, ChartsInv p → ChartsInv (runCalls calls p) := by
  induction calls with
  | nil => intro p h; exact h
  | cons call rest ih =>
    intro p h
    exact ih (runCall p call) (inv_runCall p call h)

theorem liveOn_length_le_one (p : Page) (hinv : ChartsInv p) (c : Canvas) :
    (p.liveOn c).length ≤ 1 := by
  rcases hinv.2.2 c with h | ⟨h, -, hl⟩
  · rw [h]; simp
  · rw [hl]; simp

/-- C10. After any sequence of calls to `createEmotionPieChart` and
`createEmotionTimelineChart` from the freshly loaded page, each canvas has at
most one live chart instance. A further call first destroys the instance held
for its canvas, if any, and only then creates the replacement (the chart log
grows by the destruction followed by the creation); the instance held before is
not live afterwards, and the replacement is the only live instance on its canvas. -/
theorem chart_singletons (calls : List ChartCall) (call : ChartCall) :
    (∀ c, ((runCalls calls Page.initial).liveOn c).length ≤ 1) ∧
    (runCall (runCalls calls Page.initial) call).chartLog
      = (runCalls calls Page.initial).chartLog
        ++ (match (runCalls calls Page.initial).handle call.canvas with
            | some h => [.destroyed h.id]
            | none => [])
        ++ (if call.completes
            then [.created (runCalls calls Page.initial).nextChartId call.canvas]
            else []) ∧
    (∀ h, (runCalls calls Page.initial).handle call.canvas = some h →
      h.id ∉ (runCall (runCalls calls Page.initial) call).liveCharts.map Prod.fst) ∧
    (call.completes = true →
      (runCall (runCalls calls Page.initial) call).liveOn call.canvas
        = [((runCalls calls Page.initial).nextChartId, call.canvas)]) := by
  have hinv : ChartsInv (runCalls calls Page.initial) := inv_runCalls calls _ inv_initial
  generalize runCalls calls Page.initial = p at hinv ⊢
  obtain ⟨hlive, -, -, -, -, hlog⟩ := runCall_fields p call
  refine ⟨liveOn_length_le_one p hinv, hlog, ?_, ?_⟩
  · intro h hh hmem
    obtain ⟨l, hl, hid⟩ := List.mem_map.mp hmem
    rw [hlive] at hl
    rcases List.mem_append.mp hl with hl | hl
    · exact (mem_liveAfterDestroy p call.canvas l hl).2 h hh hid
    · have hlt := hinv.2.1 call.canvas h hh
      split_ifs at hl
      · simp only [List.mem_singleton] at hl
        rw [hl] at hid
        simp only at hid
        omega
      · simp at hl
  · intro hcomp
    unfold Page.liveOn
    rw [hlive, hcomp, List.filter_append, (liveAfterDestroy_on p hinv call.canvas call.canvas).2]
    simp

theorem chart_singletons_witness :
    (0 ∉ (runCall (runCalls [.pie [("Happy", ⟨1, 100, 90⟩)]] Page.initial)
            (.pie [("Sad", ⟨1, 100, 80⟩)])).liveCharts.map Prod.fst) ∧
    (runCall (runCalls [.pie [("Happy", ⟨1, 100, 90⟩)]] Page.initial)
        (.pie [("Sad", ⟨1, 100, 80⟩)])).liveOn .emotionPieChart
      = [(1, .emotionPieChart)] :=
  ⟨(chart_singletons [.pie [("Happy", ⟨1, 100, 90⟩)]] (.pie [("Sad", ⟨1, 100, 80⟩)])).2.2.1
      ⟨0, .emotionPieChart, .doughnut ["Happy"] [1] [.plain "#4caf50"]⟩ (by decide),
   (chart_singletons [.pie [("Happy", ⟨1, 100, 90⟩)]] (.pie [("Sad", ⟨1, 100, 80⟩)])).2.2.2
      rfl⟩

end VoiceSentiment
